import Mathlib

/-!
Shallow embedding of the redis-cache-guard module.

The repository holds two variants of the cache-stampede guard:
* `Orig` — the original `cache-anit-tampede.c` (`TryAcquireLock`,
  `CacheGuardGetCommand`, `CacheGuardSetCommand`);
* `Enh` — the enhanced variant (`CreateLockKey`, `TryAcquireLock`,
  `CacheGuardGetCommand`, `CacheGuardSetCommand` with validation and a
  configurable `max_lock_duration`).

Redis executes module commands one at a time, so each command is embedded as a
pure function from a store state to a reply together with the next store state.
Keys and values are byte lists; the remaining TTL of an entry is `Option Int`
(`none` models `REDISMODULE_NO_EXPIRE`).  Concurrent invocations are modelled
as the serialized interleaving Redis itself produces (`runGets`).
-/

/-- Redis keys are byte strings. -/
abbrev Key := List Nat

/-- A string entry in the store: its bytes and its remaining TTL in
milliseconds (`none` = no expiry, i.e. `REDISMODULE_NO_EXPIRE`). -/
structure Entry where
  value : List Nat
  ttl : Option Int
deriving DecidableEq, Repr

/-- The key/value store: which entry, if any, lives at each key. -/
abbrev Store := Key → Option Entry

/-- Point update of the store (models `RedisModule_StringSet`/`SetExpire` at a
key, or `RedisModule_DeleteKey` when `v = none`). -/
def upd (s : Store) (q : Key) (v : Option Entry) : Store :=
  fun x => if x = q then v else s x

/-- A reply sent back to the client. -/
inductive Reply where
  | nullReply
  | bulk (v : List Nat)
  | err (msg : String)
  | okSimple
deriving DecidableEq, Repr

/-- The bytes of the `REGEN_LOCK_SUFFIX` macro `":regen_lock"`. -/
def REGEN_LOCK_SUFFIX : List Nat :=
  [58, 114, 101, 103, 101, 110, 95, 108, 111, 99, 107]

/-- The bytes of the string `"1"`, the value stored under a regeneration lock
(`RedisModule_CreateStringFromLongLong(ctx, 1)`). -/
def LOCK_VALUE : List Nat := [49]

namespace Orig

/-- Lock-key derivation of the original variant: the buffer holds the key
bytes, then `":regen_lock"`, then a terminating NUL, but the derived key is
built with `RedisModule_CreateString(ctx, lockName, strlen(lockName))`, so the
name is truncated at the first NUL byte of the buffer. -/
def lockKeyOf (key : Key) : Key :=
  (key ++ REGEN_LOCK_SUFFIX).takeWhile (fun b => b ≠ 0)

/-- `TryAcquireLock` of `cache-anit-tampede.c`: if the lock key is empty, set
it to `"1"` with `SetNX` and give it the requested expiry; otherwise leave the
store alone and report failure. -/
def TryAcquireLock (s : Store) (key : Key) (lockExpireMs : Int) : Bool × Store :=
  match s (lockKeyOf key) with
  | none =>
    (true, upd s (lockKeyOf key) (some ⟨LOCK_VALUE, some lockExpireMs⟩))
  | some _ => (false, s)

/-- `CacheGuardGetCommand` of `cache-anit-tampede.c`, after the arity check and
the numeric parse of `argv[2]`. -/
def CacheGuardGetCommand (s : Store) (key : Key) (gracePeriodMs : Int) :
    Reply × Store :=
  if gracePeriodMs < 0 then (Reply.err "ERR invalid grace period", s)
  else
    match s key with
    | none => (Reply.nullReply, s)
    | some e =>
      match e.ttl with
      | none => (Reply.bulk e.value, s)
      | some t =>
        if t > gracePeriodMs then (Reply.bulk e.value, s)
        else
          let r := TryAcquireLock s key gracePeriodMs
          if r.1 then (Reply.nullReply, r.2) else (Reply.bulk e.value, r.2)

/-- `CacheGuardSetCommand` of `cache-anit-tampede.c`, after the arity check and
the numeric parse of `argv[3]`: write the entry, then delete the regeneration
lock. -/
def CacheGuardSetCommand (s : Store) (key : Key) (value : List Nat)
    (expire : Int) : Reply × Store :=
  if expire ≤ 0 then (Reply.err "ERR invalid expire time", s)
  else
    let s1 := upd s key (some ⟨value, some expire⟩)
    let s2 := upd s1 (lockKeyOf key) none
    (Reply.okSimple, s2)

end Orig

namespace Enh

/-- `MAX_KEY_LENGTH` macro. -/
def MAX_KEY_LENGTH : Nat := 512

/-- `sizeof(REGEN_LOCK_SUFFIX)` in C: the 11 suffix bytes plus the
terminating NUL. -/
def SUFFIX_SIZEOF : Nat := 12

/-- `MIN_GRACE_PERIOD_MS` macro. -/
def MIN_GRACE_PERIOD_MS : Int := 100

/-- `MAX_GRACE_PERIOD_MS` macro (24 hours). -/
def MAX_GRACE_PERIOD_MS : Int := 24 * 60 * 60 * 1000

/-- `MIN_EXPIRE_MS` macro. -/
def MIN_EXPIRE_MS : Int := 1000

/-- `MAX_EXPIRE_MS` macro (7 days). -/
def MAX_EXPIRE_MS : Int := 7 * 24 * 60 * 60 * 1000

/-- `CreateLockKey` of the enhanced variant: reject empty keys and keys longer
than `MAX_KEY_LENGTH - sizeof(REGEN_LOCK_SUFFIX)`; otherwise append the suffix,
using the exact byte length (no `strlen` truncation). -/
def CreateLockKey (key : Key) : Option Key :=
  if key.length = 0 then none
  else if key.length > MAX_KEY_LENGTH - SUFFIX_SIZEOF then none
  else some (key ++ REGEN_LOCK_SUFFIX)

/-- `TryAcquireLock` of the enhanced variant.  `maxLockDuration` is the
`module_config.max_lock_duration` field (default 30000).  An out-of-range
`lockExpireMs` makes the function log a warning and return 0 (not acquired);
the same happens when `CreateLockKey` fails or the lock key is non-empty. -/
def TryAcquireLock (maxLockDuration : Int) (s : Store) (key : Key)
    (lockExpireMs : Int) : Bool × Store :=
  if lockExpireMs < MIN_GRACE_PERIOD_MS ∨ lockExpireMs > maxLockDuration then
    (false, s)
  else
    match CreateLockKey key with
    | none => (false, s)
    | some lk =>
      match s lk with
      | none => (true, upd s lk (some ⟨LOCK_VALUE, some lockExpireMs⟩))
      | some _ => (false, s)

/-- `CacheGuardGetCommand` of the enhanced variant, after the arity check and
the numeric parse of `argv[2]`: grace-period range check, then key-length
checks, then the store read and the grace decision. -/
def CacheGuardGetCommand (maxLockDuration : Int) (s : Store) (key : Key)
    (gracePeriodMs : Int) : Reply × Store :=
  if gracePeriodMs < MIN_GRACE_PERIOD_MS ∨ gracePeriodMs > MAX_GRACE_PERIOD_MS then
    (Reply.err "ERR grace period must be between 100ms and 24 hours", s)
  else if key.length = 0 then (Reply.err "ERR empty key not allowed", s)
  else if key.length > MAX_KEY_LENGTH then (Reply.err "ERR key too long", s)
  else
    match s key with
    | none => (Reply.nullReply, s)
    | some e =>
      match e.ttl with
      | none => (Reply.bulk e.value, s)
      | some t =>
        if t > gracePeriodMs then (Reply.bulk e.value, s)
        else
          let r := TryAcquireLock maxLockDuration s key gracePeriodMs
          if r.1 then (Reply.nullReply, r.2) else (Reply.bulk e.value, r.2)

/-- `CacheGuardSetCommand` of the enhanced variant, after the arity check and
the numeric parse of `argv[3]`: validations, entry write, then lock cleanup
(the lock is deleted only when `CreateLockKey` succeeds and the lock key is
non-empty). -/
def CacheGuardSetCommand (s : Store) (key : Key) (value : List Nat)
    (expire : Int) : Reply × Store :=
  if key.length = 0 then (Reply.err "ERR empty key not allowed", s)
  else if key.length > MAX_KEY_LENGTH then (Reply.err "ERR key too long", s)
  else if value.length > 10 * 1024 * 1024 then
    (Reply.err "ERR value too large", s)
  else if expire < MIN_EXPIRE_MS ∨ expire > MAX_EXPIRE_MS then
    (Reply.err "ERR expire time must be between 1 second and 7 days", s)
  else
    let s1 := upd s key (some ⟨value, some expire⟩)
    let s2 :=
      match CreateLockKey key with
      | none => s1
      | some lk =>
        match s1 lk with
        | none => s1
        | some _ => upd s1 lk none
    (Reply.okSimple, s2)

/-- Serialized interleaving of `n` `cache.guard.get` invocations with the same
key and grace period: Redis runs module commands one at a time, so `n`
concurrent callers observe this sequence of replies. -/
def runGets (maxLockDuration : Int) (key : Key) (gracePeriodMs : Int) :
    Nat → Store → List Reply
  | 0, _ => []
  | n + 1, s =>
    let r := CacheGuardGetCommand maxLockDuration s key gracePeriodMs
    r.1 :: runGets maxLockDuration key gracePeriodMs n r.2

end Enh

/-! ## Helper lemmas -/

theorem upd_same (s : Store) (q : Key) (v : Option Entry) : upd s q v q = v := by
  simp [upd]

theorem upd_other (s : Store) (q : Key) (v : Option Entry) {x : Key}
    (h : x ≠ q) : upd s q v x = s x := by
  simp [upd, h]

theorem key_ne_append_lockSuffix (k : Key) : k ≠ k ++ REGEN_LOCK_SUFFIX := by
  intro h
  have h2 := congrArg List.length h
  rw [List.length_append] at h2
  simp [REGEN_LOCK_SUFFIX] at h2

theorem enh_get_lock_branch (maxd g t : Int) (s : Store) (k : Key) (e : Entry)
    (hg1 : 100 ≤ g) (hg2 : g ≤ 86400000)
    (hk1 : k.length ≠ 0) (hk2 : k.length ≤ 512)
    (he : s k = some e) (ht : e.ttl = some t) (htg : ¬ t > g) :
    Enh.CacheGuardGetCommand maxd s k g =
      if (Enh.TryAcquireLock maxd s k g).1
      then (Reply.nullReply, (Enh.TryAcquireLock maxd s k g).2)
      else (Reply.bulk e.value, (Enh.TryAcquireLock maxd s k g).2) := by
  unfold Enh.CacheGuardGetCommand
  rw [if_neg (by simp only [Enh.MIN_GRACE_PERIOD_MS, Enh.MAX_GRACE_PERIOD_MS]; omega),
    if_neg hk1, if_neg (by simp only [Enh.MAX_KEY_LENGTH]; omega), he]
  simp only [ht, if_neg htg]

theorem enh_get_fresh_of_ttl_gt (maxd g t : Int) (s : Store) (k : Key) (e : Entry)
    (hg1 : 100 ≤ g) (hg2 : g ≤ 86400000)
    (hk1 : k.length ≠ 0) (hk2 : k.length ≤ 512)
    (he : s k = some e) (ht : e.ttl = some t) (htg : t > g) :
    Enh.CacheGuardGetCommand maxd s k g = (Reply.bulk e.value, s) := by
  unfold Enh.CacheGuardGetCommand
  rw [if_neg (by simp only [Enh.MIN_GRACE_PERIOD_MS, Enh.MAX_GRACE_PERIOD_MS]; omega),
    if_neg hk1, if_neg (by simp only [Enh.MAX_KEY_LENGTH]; omega), he]
  simp only [ht, if_pos htg]

theorem enh_get_fresh_of_no_expire (maxd g : Int) (s : Store) (k : Key) (e : Entry)
    (hg1 : 100 ≤ g) (hg2 : g ≤ 86400000)
    (hk1 : k.length ≠ 0) (hk2 : k.length ≤ 512)
    (he : s k = some e) (ht : e.ttl = none) :
    Enh.CacheGuardGetCommand maxd s k g = (Reply.bulk e.value, s) := by
  unfold Enh.CacheGuardGetCommand
  rw [if_neg (by simp only [Enh.MIN_GRACE_PERIOD_MS, Enh.MAX_GRACE_PERIOD_MS]; omega),
    if_neg hk1, if_neg (by simp only [Enh.MAX_KEY_LENGTH]; omega), he]
  simp only [ht]

theorem enh_tryAcquire_out_of_range (maxd d : Int) (s : Store) (k : Key)
    (hd : d < 100 ∨ d > maxd) :
    Enh.TryAcquireLock maxd s k d = (false, s) := by
  unfold Enh.TryAcquireLock
  rw [if_pos (by simp only [Enh.MIN_GRACE_PERIOD_MS]; omega)]

theorem enh_tryAcquire_lock_present (maxd d : Int) (s : Store) (k lk : Key)
    (e : Entry) (hclk : Enh.CreateLockKey k = some lk) (hl : s lk = some e) :
    Enh.TryAcquireLock maxd s k d = (false, s) := by
  unfold Enh.TryAcquireLock
  by_cases hd : d < Enh.MIN_GRACE_PERIOD_MS ∨ d > maxd
  · rw [if_pos hd]
  · rw [if_neg hd, hclk]
    simp only [hl]

theorem enh_tryAcquire_success (maxd d : Int) (s : Store) (k lk : Key)
    (hdr : ¬ (d < 100 ∨ d > maxd))
    (hclk : Enh.CreateLockKey k = some lk) (hl : s lk = none) :
    Enh.TryAcquireLock maxd s k d =
      (true, upd s lk (some ⟨LOCK_VALUE, some d⟩)) := by
  unfold Enh.TryAcquireLock
  rw [if_neg (by simp only [Enh.MIN_GRACE_PERIOD_MS]; omega), hclk]
  simp only [hl]

theorem enh_createLockKey_eq (k : Key) (hk1 : k.length ≠ 0) (hk2 : k.length ≤ 500) :
    Enh.CreateLockKey k = some (k ++ REGEN_LOCK_SUFFIX) := by
  unfold Enh.CreateLockKey
  rw [if_neg hk1,
    if_neg (by simp only [Enh.MAX_KEY_LENGTH, Enh.SUFFIX_SIZEOF]; omega)]

theorem orig_get_lock_branch (g t : Int) (s : Store) (k : Key) (e : Entry)
    (hg : 0 ≤ g) (he : s k = some e) (ht : e.ttl = some t) (htg : ¬ t > g) :
    Orig.CacheGuardGetCommand s k g =
      if (Orig.TryAcquireLock s k g).1
      then (Reply.nullReply, (Orig.TryAcquireLock s k g).2)
      else (Reply.bulk e.value, (Orig.TryAcquireLock s k g).2) := by
  unfold Orig.CacheGuardGetCommand
  rw [if_neg (by omega), he]
  simp only [ht, if_neg htg]

theorem orig_tryAcquire_absent (s : Store) (k : Key) (d : Int)
    (hl : s (Orig.lockKeyOf k) = none) :
    Orig.TryAcquireLock s k d =
      (true, upd s (Orig.lockKeyOf k) (some ⟨LOCK_VALUE, some d⟩)) := by
  unfold Orig.TryAcquireLock
  rw [hl]

theorem orig_tryAcquire_present (s : Store) (k : Key) (d : Int) (le : Entry)
    (hl : s (Orig.lockKeyOf k) = some le) :
    Orig.TryAcquireLock s k d = (false, s) := by
  unfold Orig.TryAcquireLock
  rw [hl]

theorem enh_createLockKey_shape (k lk : Key)
    (h : Enh.CreateLockKey k = some lk) : lk = k ++ REGEN_LOCK_SUFFIX := by
  unfold Enh.CreateLockKey at h
  by_cases h0 : k.length = 0
  · rw [if_pos h0] at h; cases h
  · rw [if_neg h0] at h
    by_cases h1 : k.length > Enh.MAX_KEY_LENGTH - Enh.SUFFIX_SIZEOF
    · rw [if_pos h1] at h; cases h
    · rw [if_neg h1] at h; injection h with h; exact h.symm

theorem enh_set_entry (s : Store) (k : Key) (v : List Nat) (expire : Int)
    (hk1 : k.length ≠ 0) (hk2 : k.length ≤ 512) (hv : v.length ≤ 10485760)
    (he1 : 1000 ≤ expire) (he2 : expire ≤ 604800000) :
    (Enh.CacheGuardSetCommand s k v expire).1 = Reply.okSimple ∧
    (Enh.CacheGuardSetCommand s k v expire).2 k = some ⟨v, some expire⟩ := by
  unfold Enh.CacheGuardSetCommand
  rw [if_neg hk1, if_neg (by simp only [Enh.MAX_KEY_LENGTH]; omega),
    if_neg (by omega),
    if_neg (by simp only [Enh.MIN_EXPIRE_MS, Enh.MAX_EXPIRE_MS]; omega)]
  cases hclk : Enh.CreateLockKey k with
  | none =>
    dsimp only
    exact ⟨rfl, upd_same s k (some ⟨v, some expire⟩)⟩
  | some lk =>
    have hlk : lk = k ++ REGEN_LOCK_SUFFIX := enh_createLockKey_shape k lk hclk
    dsimp only
    cases hsl : upd s k (some ⟨v, some expire⟩) lk with
    | none =>
      dsimp only
      exact ⟨rfl, upd_same s k (some ⟨v, some expire⟩)⟩
    | some e0 =>
      dsimp only
      refine ⟨rfl, ?_⟩
      rw [upd_other _ _ _ (hlk ▸ key_ne_append_lockSuffix k),
        upd_same s k (some ⟨v, some expire⟩)]

theorem enh_set_releases_lock (s : Store) (k : Key) (v : List Nat)
    (expire : Int)
    (hk1 : k.length ≠ 0) (hk2 : k.length ≤ 500) (hv : v.length ≤ 10485760)
    (he1 : 1000 ≤ expire) (he2 : expire ≤ 604800000) :
    (Enh.CacheGuardSetCommand s k v expire).2 (k ++ REGEN_LOCK_SUFFIX) = none := by
  unfold Enh.CacheGuardSetCommand
  rw [if_neg hk1, if_neg (by simp only [Enh.MAX_KEY_LENGTH]; omega),
    if_neg (by omega),
    if_neg (by simp only [Enh.MIN_EXPIRE_MS, Enh.MAX_EXPIRE_MS]; omega),
    enh_createLockKey_eq k hk1 hk2]
  dsimp only
  cases hsl : upd s k (some ⟨v, some expire⟩) (k ++ REGEN_LOCK_SUFFIX) with
  | none =>
    dsimp only
    exact hsl
  | some e0 =>
    dsimp only
    exact upd_same (upd s k (some ⟨v, some expire⟩)) (k ++ REGEN_LOCK_SUFFIX) none

theorem orig_set_ok (s : Store) (k : Key) (v : List Nat) (expire : Int)
    (he : ¬ expire ≤ 0) :
    Orig.CacheGuardSetCommand s k v expire =
      (Reply.okSimple,
        upd (upd s k (some ⟨v, some expire⟩)) (Orig.lockKeyOf k) none) := by
  unfold Orig.CacheGuardSetCommand
  rw [if_neg he]

/-! ## Concrete stores used by witnesses and counterexamples -/

/-- The empty store. -/
def emptyStore : Store := fun _ => none

/-- A store holding one entry at key `[107]` with value `[118]` and 200 ms of
remaining TTL, and no regeneration lock. -/
def graceStore : Store :=
  fun q => if q = [107] then some ⟨[118], some 200⟩ else none

/-- A store holding, at key `[107]`, an entry with 200 ms of remaining TTL and,
at the derived lock key, an existing regeneration lock. -/
def lockedStore : Store :=
  fun q =>
    if q = [107] then some ⟨[118], some 200⟩
    else if q = [107] ++ REGEN_LOCK_SUFFIX then some ⟨LOCK_VALUE, some 5000⟩
    else none

/-! ## Claims -/

/-- Claim C3 (confirmed): in the enhanced variant, for every grace period
strictly greater than the configured `max_lock_duration` but within the
accepted 24-hour input bound, a `get` on an entry that is in grace or expired
(remaining TTL at most the grace period) returns the stale stored value and
never Regenerate — with no hypothesis at all on the regeneration lock, because
the lock-duration check inside `TryAcquireLock` returns not-acquired instead
of an error. -/
theorem C3_grace_above_max_lock_duration_always_stale
    (maxd g t : Int) (s : Store) (k : Key) (e : Entry)
    (hg1 : 100 ≤ g) (hg2 : g ≤ 86400000) (hgd : maxd < g)
    (hk1 : k.length ≠ 0) (hk2 : k.length ≤ 512)
    (he : s k = some e) (ht : e.ttl = some t) (htg : t ≤ g) :
    Enh.CacheGuardGetCommand maxd s k g = (Reply.bulk e.value, s) := by
  rw [enh_get_lock_branch maxd g t s k e hg1 hg2 hk1 hk2 he ht (by omega),
    enh_tryAcquire_out_of_range maxd g s k (Or.inr (by omega))]
  simp

/-- Witness for C3: grace 40000 ms exceeds max_lock_duration 30000 ms; the
entry with 200 ms of remaining TTL is returned stale, store untouched. -/
theorem C3_witness :
    Enh.CacheGuardGetCommand 30000 graceStore [107] 40000 =
      (Reply.bulk [118], graceStore) :=
  C3_grace_above_max_lock_duration_always_stale 30000 40000 200 graceStore
    [107] ⟨[118], some 200⟩ (by decide) (by decide) (by decide) (by decide)
    (by decide) (by decide) rfl (by decide)

/-- Claim C4 (confirmed): `TryAcquireLock` returns acquired exactly when this
call created the lock record (the lock key derives, was absent, and now holds
the fresh lock value with the requested expiry); whenever a lock record is
already present it returns not-acquired and leaves the whole store — in
particular the holder's lock value and expiry — unchanged. -/
theorem C4_acquired_iff_created_never_overwrites
    (maxd d : Int) (s : Store) (k : Key) :
    (∀ lk e, Enh.CreateLockKey k = some lk → s lk = some e →
      Enh.TryAcquireLock maxd s k d = (false, s)) ∧
    ((Enh.TryAcquireLock maxd s k d).1 = true ↔
      ∃ lk, Enh.CreateLockKey k = some lk ∧ s lk = none ∧
        (Enh.TryAcquireLock maxd s k d).2 lk = some ⟨LOCK_VALUE, some d⟩) := by
  refine ⟨fun lk e hclk hl => enh_tryAcquire_lock_present maxd d s k lk e hclk hl, ?_⟩
  by_cases hdr : d < 100 ∨ d > maxd
  · rw [enh_tryAcquire_out_of_range maxd d s k hdr]
    constructor
    · intro h; exact absurd h (by simp)
    · rintro ⟨lk, _, hnone, hr⟩
      change s lk = some _ at hr
      rw [hnone] at hr
      cases hr
  · cases hclk : Enh.CreateLockKey k with
    | none =>
      have hres : Enh.TryAcquireLock maxd s k d = (false, s) := by
        unfold Enh.TryAcquireLock
        rw [if_neg (by simp only [Enh.MIN_GRACE_PERIOD_MS]; omega), hclk]
      rw [hres]
      constructor
      · intro h; exact absurd h (by simp)
      · rintro ⟨lk, hclk2, _, _⟩
        cases hclk2
    | some lk0 =>
      cases hl : s lk0 with
      | none =>
        rw [enh_tryAcquire_success maxd d s k lk0 hdr hclk hl]
        constructor
        · intro _
          exact ⟨lk0, rfl, hl, upd_same s lk0 (some ⟨LOCK_VALUE, some d⟩)⟩
        · intro _; rfl
      | some e0 =>
        rw [enh_tryAcquire_lock_present maxd d s k lk0 e0 hclk hl]
        constructor
        · intro h; exact absurd h (by simp)
        · rintro ⟨lk, hclk2, hnone, _⟩
          injection hclk2 with hlk
          rw [← hlk, hl] at hnone
          cases hnone

/-- Witness for C4: with the lock already present, a racing acquire with
duration 9000 ms observes not-acquired and the store (hence the holder's lock
record) is unchanged. -/
theorem C4_witness :
    Enh.TryAcquireLock 30000 lockedStore [107] 9000 = (false, lockedStore) :=
  (C4_acquired_iff_created_never_overwrites 30000 9000 lockedStore [107]).1
    ([107] ++ REGEN_LOCK_SUFFIX) ⟨LOCK_VALUE, some 5000⟩ (by decide) (by decide)

/-- Counterexample to claim C5: the original variant computes the lock-key
length with `strlen`, so the derivation truncates at the first NUL byte: the
distinct keys `[97, 0, 98]` and `[97, 0, 99]` derive the same lock key, and
that lock key is not the concatenation of the key with the suffix. -/
theorem C5_counterexample :
    Orig.lockKeyOf [97, 0, 98] = Orig.lockKeyOf [97, 0, 99] ∧
    ([97, 0, 98] : Key) ≠ [97, 0, 99] ∧
    Orig.lockKeyOf [97, 0, 98] ≠ [97, 0, 98] ++ REGEN_LOCK_SUFFIX := by
  decide

/-- Claim C5 (amended): in the enhanced variant, `CreateLockKey` on every key
it accepts is exactly the concatenation of the cache key and the fixed
reserved suffix, and it is injective even for keys containing arbitrary bytes;
the original variant's derivation instead truncates at the first NUL byte and
so collides on keys that differ only after a NUL. -/
theorem C5_amended_enh_deriver_is_injective_concat :
    (∀ k lk, Enh.CreateLockKey k = some lk → lk = k ++ REGEN_LOCK_SUFFIX) ∧
    (∀ k1 k2 lk, Enh.CreateLockKey k1 = some lk →
      Enh.CreateLockKey k2 = some lk → k1 = k2) := by
  refine ⟨fun k lk h => enh_createLockKey_shape k lk h, fun k1 k2 lk h1 h2 => ?_⟩
  have e1 := enh_createLockKey_shape k1 lk h1
  have e2 := enh_createLockKey_shape k2 lk h2
  exact List.append_cancel_right (e1.symm.trans e2)

/-- Witness for C5: the derived lock key of `[107]` is the concatenation with
the suffix, as the amended claim's first part computes on a concrete key. -/
theorem C5_witness :
    Enh.CreateLockKey [107] = some ([107] ++ REGEN_LOCK_SUFFIX) ∧
    ([107] ++ REGEN_LOCK_SUFFIX : Key) = [107] ++ REGEN_LOCK_SUFFIX :=
  ⟨by decide,
    C5_amended_enh_deriver_is_injective_concat.1 [107]
      ([107] ++ REGEN_LOCK_SUFFIX) (by decide)⟩

/-- Claim C6 (confirmed): a grace period outside the configured bounds is
rejected with the invalid-argument error before any store access, leaving the
store completely unchanged — enhanced variant bounds `[100 ms, 24 h]`,
original variant bound `gracePeriod ≥ 0`. -/
theorem C6_invalid_grace_fails_fast_store_unchanged
    (maxd g : Int) (s : Store) (k : Key) :
    ((g < 100 ∨ g > 86400000) →
      Enh.CacheGuardGetCommand maxd s k g =
        (Reply.err "ERR grace period must be between 100ms and 24 hours", s)) ∧
    (g < 0 →
      Orig.CacheGuardGetCommand s k g =
        (Reply.err "ERR invalid grace period", s)) := by
  constructor
  · intro hg
    unfold Enh.CacheGuardGetCommand
    rw [if_pos (by simp only [Enh.MIN_GRACE_PERIOD_MS, Enh.MAX_GRACE_PERIOD_MS]; omega)]
  · intro hg
    unfold Orig.CacheGuardGetCommand
    rw [if_pos hg]

/-- Witness for C6: the spec's scenario `get("k", 50)` with minGrace = 100 —
the call fails with the grace-period error and the store is unchanged. -/
theorem C6_witness :
    Enh.CacheGuardGetCommand 30000 emptyStore [107] 50 =
      (Reply.err "ERR grace period must be between 100ms and 24 hours",
        emptyStore) :=
  (C6_invalid_grace_fails_fast_store_unchanged 30000 50 emptyStore [107]).1
    (Or.inl (by decide))

/-- Counterexample to claim C7: lock duration 50 ms lies outside
`[100, 30000]`, yet the enhanced `TryAcquireLock` returns the plain
not-acquired outcome `0` with the store untouched — the same outcome a caller
sees when the lock is already held — and its `int` return channel carries no
distinct InvalidLockDuration error at all. -/
theorem C7_counterexample :
    Enh.TryAcquireLock 30000 emptyStore [107] 50 = (false, emptyStore) := by
  rfl

/-- Claim C7 (amended): for every lock duration outside
`[minGracePeriod, max_lock_duration]`, the enhanced `TryAcquireLock` logs a
warning and returns not-acquired with the store unchanged; no distinct
InvalidLockDuration error is surfaced to the caller. -/
theorem C7_amended_out_of_range_duration_is_not_acquired
    (maxd d : Int) (s : Store) (k : Key) (hd : d < 100 ∨ d > maxd) :
    Enh.TryAcquireLock maxd s k d = (false, s) :=
  enh_tryAcquire_out_of_range maxd d s k hd

/-- Witness for C7: lock duration 31000 ms exceeds max_lock_duration 30000 ms;
the call returns not-acquired and leaves the store unchanged. -/
theorem C7_witness :
    Enh.TryAcquireLock 30000 lockedStore [107] 31000 = (false, lockedStore) :=
  C7_amended_out_of_range_duration_is_not_acquired 30000 31000 lockedStore
    [107] (Or.inr (by decide))

/-- A store holding one entry at key `[97]` with value `[118]` and remaining
TTL 0 (logically expired), and a regeneration lock already present. -/
def expiredLockedStore : Store :=
  fun q =>
    if q = [97] then some ⟨[118], some 0⟩
    else if q = [97] ++ REGEN_LOCK_SUFFIX then some ⟨LOCK_VALUE, some 50⟩
    else none

/-- A store holding one entry at key `[97]` with value `[118]` and remaining
TTL 0 (logically expired), and no regeneration lock. -/
def expiredStore : Store :=
  fun q => if q = [97] then some ⟨[118], some 0⟩ else none

/-- A store holding one entry at key `[107]` with remaining TTL 5000 ms, and
no regeneration lock. -/
def boundaryStore : Store :=
  fun q => if q = [107] then some ⟨[118], some 5000⟩ else none

/-- The 501-byte key used against the enhanced `set`. -/
def longKey : Key := List.replicate 501 107

/-- A store holding a lock record at the lock key derived from `longKey`. -/
def longKeyLockStore : Store :=
  fun q =>
    if q = longKey ++ REGEN_LOCK_SUFFIX then some ⟨LOCK_VALUE, some 5000⟩
    else none

/-- Counterexample to claim C1: at key `[97]` an entry exists with remaining
TTL 0, i.e. logically expired, yet with the regeneration lock already held the
original `get` returns the entry's old value `[118]` as a reply instead of
classifying the entry ABSENT and returning Regenerate. -/
theorem C1_counterexample :
    expiredLockedStore [97] = some ⟨[118], some 0⟩ ∧
    (Orig.CacheGuardGetCommand expiredLockedStore [97] 100).1 =
      Reply.bulk [118] := by
  exact ⟨by decide, by decide⟩

/-- Claim C1 (amended): an existing entry whose remaining TTL is at most zero
is treated exactly like an in-grace entry, not as ABSENT: the caller that
acquires the regeneration lock is told Regenerate (and the lock is written);
a caller that finds the lock already present receives the entry's old value
as a stale reply with the store unchanged; the entry is never purged. -/
theorem C1_amended_expired_entry_treated_as_in_grace
    (g t : Int) (s : Store) (k : Key) (e : Entry)
    (hg : 0 ≤ g) (he : s k = some e) (ht : e.ttl = some t) (ht0 : t ≤ 0) :
    (s (Orig.lockKeyOf k) = none →
      Orig.CacheGuardGetCommand s k g =
        (Reply.nullReply,
          upd s (Orig.lockKeyOf k) (some ⟨LOCK_VALUE, some g⟩))) ∧
    (∀ le, s (Orig.lockKeyOf k) = some le →
      Orig.CacheGuardGetCommand s k g = (Reply.bulk e.value, s)) := by
  have hbranch := orig_get_lock_branch g t s k e hg he ht (by omega)
  constructor
  · intro hl
    rw [hbranch, orig_tryAcquire_absent s k g hl]
    simp
  · intro le hl
    rw [hbranch, orig_tryAcquire_present s k g le hl]
    simp

/-- Witness for C1: with remaining TTL 0 and no lock present, the caller is
told Regenerate and the lock is written with the grace period as expiry. -/
theorem C1_witness :
    Orig.CacheGuardGetCommand expiredStore [97] 100 =
      (Reply.nullReply,
        upd expiredStore (Orig.lockKeyOf [97]) (some ⟨LOCK_VALUE, some 100⟩)) :=
  (C1_amended_expired_entry_treated_as_in_grace 100 0 expiredStore [97]
    ⟨[118], some 0⟩ (by decide) (by decide) rfl (by decide)).1 (by decide)

/-- Counterexample to claim C2: the entry at `[107]` is observed in grace
(remaining TTL 200 ms, grace 40000 ms) and no regeneration lock exists, yet
with `max_lock_duration = 30000 < 40000` both of two serialized `get` calls
receive the stale value — zero callers, not exactly one, receive
Regenerate. -/
theorem C2_counterexample :
    graceStore [107] = some ⟨[118], some 200⟩ ∧
    graceStore ([107] ++ REGEN_LOCK_SUFFIX) = none ∧
    Enh.runGets 30000 [107] 40000 2 graceStore =
      [Reply.bulk [118], Reply.bulk [118]] := by
  exact ⟨by decide, by decide, by decide⟩

/-- Among serialized `get` calls that keep observing the regeneration lock
present, every call receives the stale stored value. -/
theorem enh_runGets_all_stale_when_locked (maxd g t : Int) (k : Key)
    (e le : Entry)
    (hg1 : 100 ≤ g) (hg2 : g ≤ 86400000)
    (hk1 : k.length ≠ 0) (hk2 : k.length ≤ 500)
    (ht : e.ttl = some t) (htg : ¬ t > g) :
    ∀ (n : Nat) (s : Store), s k = some e →
      s (k ++ REGEN_LOCK_SUFFIX) = some le →
      Enh.runGets maxd k g n s = List.replicate n (Reply.bulk e.value) := by
  intro n
  induction n with
  | zero => intro s _ _; rfl
  | succ n ih =>
    intro s he hl
    have hstep : Enh.CacheGuardGetCommand maxd s k g = (Reply.bulk e.value, s) := by
      rw [enh_get_lock_branch maxd g t s k e hg1 hg2 hk1 (by omega) he ht htg,
        enh_tryAcquire_lock_present maxd g s k (k ++ REGEN_LOCK_SUFFIX) le
          (enh_createLockKey_eq k hk1 hk2) hl]
      simp
    simp only [Enh.runGets, hstep]
    rw [ih s he hl, List.replicate_succ]

/-- Claim C2 (amended): among N ≥ 1 serialized `get` calls that all observe
the same entry in grace, with the grace period not exceeding the configured
`max_lock_duration` and a key the lock-key deriver accepts (at most 500
bytes), the first call acquires the regeneration lock and receives
Regenerate, and every other call receives the prior stored value as a stale
reply. -/
theorem C2_amended_exactly_first_regenerates
    (maxd g t : Int) (s : Store) (k : Key) (e : Entry) (n : Nat)
    (hg1 : 100 ≤ g) (hg2 : g ≤ 86400000) (hgd : g ≤ maxd)
    (hk1 : k.length ≠ 0) (hk2 : k.length ≤ 500)
    (he : s k = some e) (ht : e.ttl = some t) (_ht0 : 0 < t) (htg : t ≤ g)
    (hl : s (k ++ REGEN_LOCK_SUFFIX) = none) :
    Enh.runGets maxd k g (n + 1) s =
      Reply.nullReply :: List.replicate n (Reply.bulk e.value) := by
  have hacq := enh_tryAcquire_success maxd g s k (k ++ REGEN_LOCK_SUFFIX)
    (by omega) (enh_createLockKey_eq k hk1 hk2) hl
  have hstep : Enh.CacheGuardGetCommand maxd s k g =
      (Reply.nullReply,
        upd s (k ++ REGEN_LOCK_SUFFIX) (some ⟨LOCK_VALUE, some g⟩)) := by
    rw [enh_get_lock_branch maxd g t s k e hg1 hg2 hk1 (by omega) he ht
      (by omega), hacq]
    simp
  have he2 : upd s (k ++ REGEN_LOCK_SUFFIX) (some ⟨LOCK_VALUE, some g⟩) k =
      some e := by
    rw [upd_other _ _ _ (key_ne_append_lockSuffix k)]; exact he
  have hl2 : upd s (k ++ REGEN_LOCK_SUFFIX) (some ⟨LOCK_VALUE, some g⟩)
      (k ++ REGEN_LOCK_SUFFIX) = some ⟨LOCK_VALUE, some g⟩ :=
    upd_same s (k ++ REGEN_LOCK_SUFFIX) (some ⟨LOCK_VALUE, some g⟩)
  simp only [Enh.runGets, hstep]
  rw [enh_runGets_all_stale_when_locked maxd g t k e ⟨LOCK_VALUE, some g⟩
    hg1 hg2 hk1 hk2 ht (by omega) n _ he2 hl2]

/-- Witness for C2: three serialized calls on an in-grace entry (TTL 200 ms,
grace 5000 ms ≤ max_lock_duration 30000 ms) — the first is told Regenerate,
the other two receive the stale value. -/
theorem C2_witness :
    Enh.runGets 30000 [107] 5000 3 graceStore =
      Reply.nullReply :: List.replicate 2 (Reply.bulk [118]) :=
  C2_amended_exactly_first_regenerates 30000 5000 200 graceStore [107]
    ⟨[118], some 200⟩ 2 (by decide) (by decide) (by decide) (by decide)
    (by decide) (by decide) rfl (by decide) (by decide) (by decide)

set_option maxRecDepth 40000 in
/-- Counterexample to claim C8: the enhanced `set` accepts keys up to 512
bytes but `CreateLockKey` refuses keys longer than 500 bytes, so for a
501-byte key `set` returns OK without attempting lock deletion and a record
at the derived lock key survives the call. -/
theorem C8_counterexample :
    (Enh.CacheGuardSetCommand longKeyLockStore longKey [118] 60000).1 =
      Reply.okSimple ∧
    (Enh.CacheGuardSetCommand longKeyLockStore longKey [118] 60000).2
      (longKey ++ REGEN_LOCK_SUFFIX) = some ⟨LOCK_VALUE, some 5000⟩ := by
  exact ⟨by decide, by decide⟩

/-- Claim C8 (amended): whenever `set` returns OK, no regeneration lock for
the key remains in the store — in the enhanced variant for every key the
lock-key deriver accepts (at most 500 bytes), and in the original variant for
every key whatsoever. -/
theorem C8_amended_successful_set_releases_lock
    (s : Store) (k : Key) (v : List Nat) (expire : Int) :
    (k.length ≠ 0 → k.length ≤ 500 → v.length ≤ 10485760 →
      1000 ≤ expire → expire ≤ 604800000 →
      (Enh.CacheGuardSetCommand s k v expire).1 = Reply.okSimple ∧
      (Enh.CacheGuardSetCommand s k v expire).2 (k ++ REGEN_LOCK_SUFFIX) =
        none) ∧
    (0 < expire →
      (Orig.CacheGuardSetCommand s k v expire).1 = Reply.okSimple ∧
      (Orig.CacheGuardSetCommand s k v expire).2 (Orig.lockKeyOf k) = none) := by
  constructor
  · intro hk1 hk2 hv he1 he2
    exact ⟨(enh_set_entry s k v expire hk1 (by omega) hv he1 he2).1,
      enh_set_releases_lock s k v expire hk1 hk2 hv he1 he2⟩
  · intro hexp
    rw [orig_set_ok s k v expire (by omega)]
    exact ⟨rfl, upd_same _ _ none⟩

/-- Witness for C8: a successful enhanced `set` over a store that holds a
regeneration lock for the key returns OK and leaves no lock record behind. -/
theorem C8_witness :
    (Enh.CacheGuardSetCommand lockedStore [107] [119] 60000).1 =
      Reply.okSimple ∧
    (Enh.CacheGuardSetCommand lockedStore [107] [119] 60000).2
      ([107] ++ REGEN_LOCK_SUFFIX) = none :=
  (C8_amended_successful_set_releases_lock lockedStore [107] [119] 60000).1
    (by decide) (by decide) (by decide) (by decide) (by decide)

/-- Claim C9 (confirmed): round-trip — after `set(k, v, ttl)` succeeds, a
`get(k, g)` with any valid grace period strictly below the remaining TTL
returns the exact value `v` that was set, as a fresh reply. -/
theorem C9_set_then_get_returns_fresh_value
    (maxd g expire : Int) (s : Store) (k : Key) (v : List Nat)
    (hk1 : k.length ≠ 0) (hk2 : k.length ≤ 512) (hv : v.length ≤ 10485760)
    (he1 : 1000 ≤ expire) (he2 : expire ≤ 604800000)
    (hg1 : 100 ≤ g) (hg2 : g ≤ 86400000) (hgt : g < expire) :
    (Enh.CacheGuardGetCommand maxd (Enh.CacheGuardSetCommand s k v expire).2
      k g).1 = Reply.bulk v := by
  have hset := (enh_set_entry s k v expire hk1 hk2 hv he1 he2).2
  rw [enh_get_fresh_of_ttl_gt maxd g expire
    ((Enh.CacheGuardSetCommand s k v expire).2) k ⟨v, some expire⟩
    hg1 hg2 hk1 hk2 hset rfl (by omega)]

/-- Witness for C9: `set([107], [112, 113], 60000)` then `get([107], 100)`
returns the fresh value `[112, 113]`. -/
theorem C9_witness :
    (Enh.CacheGuardGetCommand 30000
      (Enh.CacheGuardSetCommand emptyStore [107] [112, 113] 60000).2
      [107] 100).1 = Reply.bulk [112, 113] :=
  C9_set_then_get_returns_fresh_value 30000 100 60000 emptyStore [107]
    [112, 113] (by decide) (by decide) (by decide) (by decide) (by decide)
    (by decide) (by decide) (by decide)

/-- Claim C10 (confirmed): for an existing entry, `get` serves the value
fresh (store untouched) exactly when no expiry is set or the remaining TTL is
strictly greater than the grace period; at the boundary `remainingTTL =
gracePeriod` the entry is classified in grace — the call goes to the
regeneration lock and, when the lock is free, replies Regenerate. -/
theorem C10_fresh_iff_ttl_gt_grace_inclusive_boundary
    (maxd g t : Int) (s : Store) (k : Key) (e : Entry)
    (hg1 : 100 ≤ g) (hg2 : g ≤ 86400000)
    (hk1 : k.length ≠ 0) (hk2 : k.length ≤ 512) (he : s k = some e) :
    (e.ttl = none →
      Enh.CacheGuardGetCommand maxd s k g = (Reply.bulk e.value, s)) ∧
    (e.ttl = some t → t > g →
      Enh.CacheGuardGetCommand maxd s k g = (Reply.bulk e.value, s)) ∧
    (e.ttl = some g → g ≤ maxd → k.length ≤ 500 →
      s (k ++ REGEN_LOCK_SUFFIX) = none →
      Enh.CacheGuardGetCommand maxd s k g =
        (Reply.nullReply,
          upd s (k ++ REGEN_LOCK_SUFFIX) (some ⟨LOCK_VALUE, some g⟩))) := by
  refine ⟨fun ht => enh_get_fresh_of_no_expire maxd g s k e hg1 hg2 hk1 hk2 he ht,
    fun ht htg => enh_get_fresh_of_ttl_gt maxd g t s k e hg1 hg2 hk1 hk2 he ht htg,
    fun ht hgd hk3 hl => ?_⟩
  rw [enh_get_lock_branch maxd g g s k e hg1 hg2 hk1 hk2 he ht (by omega),
    enh_tryAcquire_success maxd g s k (k ++ REGEN_LOCK_SUFFIX) (by omega)
      (enh_createLockKey_eq k hk1 hk3) hl]
  simp

/-- Witness for C10: with remaining TTL equal to the grace period (5000 ms)
and no lock, the entry is treated as in grace: the caller is told Regenerate
and the lock is written. -/
theorem C10_witness :
    Enh.CacheGuardGetCommand 30000 boundaryStore [107] 5000 =
      (Reply.nullReply,
        upd boundaryStore ([107] ++ REGEN_LOCK_SUFFIX)
          (some ⟨LOCK_VALUE, some 5000⟩)) :=
  (C10_fresh_iff_ttl_gt_grace_inclusive_boundary 30000 5000 5000
    boundaryStore [107] ⟨[118], some 5000⟩ (by decide) (by decide) (by decide)
    (by decide) (by decide)).2.2 rfl (by decide) (by decide) (by decide)

